import Mathlib

/-!
Verification development for the meshcore gateway process: a shallow embedding of its
contact cache, record-store fallback, ingestion handlers, bot translation relay, advert
normalization and connection supervisor, together with theorems about the properties the
specification states.  JavaScript strings are embedded as lists of characters, nullable
values as Option, and each asynchronous collaborator call as the value it settles with.
-/

namespace Meshcore

/-- Character sequences stand in for JavaScript strings. -/
abbrev Str := List Char

/-! ### helpers.js -/

/-- One lowercase hex digit for a value below 16. -/
def hexDigit (n : Nat) : Char :=
  if n < 10 then Char.ofNat (48 + n) else Char.ofNat (87 + n)

/-- The two lowercase hex characters of one byte (values reduce mod 256 as Buffer.from does). -/
def byteToHex (b : Nat) : Str :=
  [hexDigit (b % 256 / 16), hexDigit (b % 16)]

/-- Embeds bytesToHex from helpers.js on byte arrays: lowercase hex encoding of a byte list
(the optional length clamp is not exercised by the code paths under study, and the null
guard is carried by the Option at each call site). -/
def bytesToHex (bs : List Nat) : Str :=
  bs.flatMap byteToHex

/-- The whitespace characters of the regex class used by trim and the name split. -/
def jsWhitespaceChars : Str := [' ', '\t', '\n', '\r', '\x0b', '\x0c']

/-- Embeds String.prototype.trim: strip leading and trailing whitespace. -/
def trimStr (s : Str) : Str :=
  ((s.dropWhile (fun c => jsWhitespaceChars.contains c)).reverse.dropWhile
    (fun c => jsWhitespaceChars.contains c)).reverse

/-- Embeds constantKey from helpers.js: first key of the constants map holding the given
value, else the default fallback "Unknown"; an absent id never equals a mapped number. -/
def constantKey (map : List (String × Int)) (id : Option Int) : String :=
  match map.find? (fun p => id == some p.2) with
  | some p => p.1
  | none => "Unknown"

/-- Civil Gregorian date (year, month, day) of a day count from 1970-01-01, matching the
Date arithmetic the JavaScript runtime performs.  Every division after the floored era
division has nonnegative operands, where floored and truncating division agree. -/
def civilFromDays (z0 : Int) : Int × Int × Int :=
  let z := z0 + 719468
  let era := Int.fdiv z 146097
  let doe := z - era * 146097
  let yoe := Int.fdiv (doe - Int.fdiv doe 1460 + Int.fdiv doe 36524 - Int.fdiv doe 146096) 365
  let y := yoe + era * 400
  let doy := doe - (365 * yoe + Int.fdiv yoe 4 - Int.fdiv yoe 100)
  let mp := Int.fdiv (5 * doy + 2) 153
  let d := doy - Int.fdiv (153 * mp + 2) 5 + 1
  let m := if mp < 10 then mp + 3 else mp - 9
  (if m ≤ 2 then y + 1 else y, m, d)

def natToStr (n : Nat) : Str := (toString n).data

def intToStr (i : Int) : Str := (toString i).data

/-- Embeds String(n).padStart(2, "0") on the calendar numbers the formatter prints. -/
def pad2 (i : Int) : Str :=
  if 0 ≤ i ∧ i < 10 then '0' :: intToStr i else intToStr i

/-- Embeds formatDateTime from helpers.js: an absent (null or undefined) input renders as
the empty string, every present number — including 0 — renders as DD.MM.YYYY HH:MM:SS in
local time; the host zone is embedded as an explicit offset in minutes. -/
def formatDateTime (tzOffsetMinutes : Int) (seconds : Option Int) : Str :=
  match seconds with
  | none => []
  | some s =>
    let localSecs := s + tzOffsetMinutes * 60
    let days := Int.fdiv localSecs 86400
    let sod := (localSecs - days * 86400).toNat
    let ymd := civilFromDays days
    pad2 ymd.2.2 ++ ['.'] ++ pad2 ymd.2.1 ++ ['.'] ++ intToStr ymd.1 ++ [' ']
      ++ pad2 (Int.ofNat (sod / 3600)) ++ [':'] ++ pad2 (Int.ofNat (sod % 3600 / 60))
      ++ [':'] ++ pad2 (Int.ofNat (sod % 60))

/-! ### the contacts cache module -/

/-- A cached contact record; absent fields are the JavaScript undefined. -/
structure Contact where
  publicKey : Option (List Nat) := none
  advName : Option Str := none
  lastAdvert : Option Int := none
  lastMod : Option Int := none
  typeF : Option Int := none
  advLat : Option Int := none
  advLon : Option Int := none
  deriving DecidableEq

/-- A value of the name index: the contact with its attached publicKeyHex. -/
abbrev NamedEntry := Contact × Str

/-- Embeds Map.prototype.set for an insertion-ordered map: replace in place, else append. -/
def mapSet (k : Str) (v : α) : List (Str × α) → List (Str × α)
  | [] => [(k, v)]
  | (k', v') :: rest => if k' = k then (k, v) :: rest else (k', v') :: mapSet k v rest

/-- Embeds Map.prototype.get. -/
def mapGet (m : List (Str × α)) (k : Str) : Option α :=
  (m.find? (fun p => p.1 == k)).map Prod.snd

/-- The dual-index in-memory contact cache. -/
structure ContactCache where
  byKey : List (Str × Contact)
  byName : List (Str × NamedEntry)
  deriving DecidableEq

def emptyCache : ContactCache := ⟨[], []⟩

/-- Embeds cacheContact: skip a contact without a public key (or whose hex encoding is
empty), store it under its hex key, and, when a nonempty display name is present, also
store it — with the hex attached — under that name, overwriting any prior owner. -/
def cacheContact (cache : ContactCache) (c : Contact) : ContactCache :=
  match c.publicKey with
  | none => cache
  | some bs =>
    let keyHex := bytesToHex bs
    if keyHex = [] then cache
    else
      let cache1 : ContactCache := { cache with byKey := mapSet keyHex c cache.byKey }
      match c.advName with
      | some n => if n = [] then cache1 else { cache1 with byName := mapSet n (c, keyHex) cache1.byName }
      | none => cache1

/-- Embeds cacheContacts: fold cacheContact over the batch. -/
def cacheContacts (cache : ContactCache) (cs : List Contact) : ContactCache :=
  cs.foldl cacheContact cache

/-- Embeds hasCachedContacts. -/
def hasCachedContacts (cache : ContactCache) : Bool :=
  !cache.byKey.isEmpty

/-- Embeds getCachedContactByPublicKey. -/
def getCachedContactByPublicKey (cache : ContactCache) (publicKeyBytes : Option (List Nat)) :
    Option NamedEntry :=
  match publicKeyBytes with
  | none => none
  | some bs => (mapGet cache.byKey (bytesToHex bs)).map (fun c => (c, bytesToHex bs))

/-- Embeds getCachedContactByPrefix: a null argument yields null; otherwise a linear scan
of the key index in insertion order returning the first entry whose hex key starts with
the hex encoding of the given bytes. -/
def getCachedContactByPfx (cache : ContactCache) (pfxBytes : Option (List Nat)) :
    Option NamedEntry :=
  match pfxBytes with
  | none => none
  | some pb =>
    let preHex := bytesToHex pb
    (cache.byKey.find? (fun p => preHex.isPrefixOf p.1)).map (fun p => (p.2, p.1))

/-- Embeds resolveContactByAdvName: a falsy name resolves to null; cache-first lookup of
the name index; on a miss, when a connection is present, fetch the full contact list once,
warm the cache with it and retry the lookup.  The connection collaborator is embedded as
the Option of the list its getContacts call resolves with.  Returns the result, whether
the device fallback ran, and the cache afterwards. -/
def resolveContactByAdvName (cache : ContactCache) (advName : Option Str)
    (connection : Option (List Contact)) : Option NamedEntry × Bool × ContactCache :=
  match advName with
  | none => (none, false, cache)
  | some n =>
    if n = [] then (none, false, cache)
    else
      match mapGet cache.byName n with
      | some e => (some e, false, cache)
      | none =>
        match connection with
        | none => (none, false, cache)
        | some cs =>
          let cache2 := cacheContacts cache cs
          (mapGet cache2.byName n, true, cache2)

/-! ### record store: the adverts-by-name fallback (database.js findAdvertsByName) -/

/-- One row of the fallback query over the adverts table. -/
structure AdvertRow where
  publicKeyCol : Option Str
  lastModCol : Option Int
  deriving DecidableEq

/-- Embeds new Set(...): first-seen-order deduplication. -/
def jsSetDedup (l : List Str) : List Str :=
  l.foldl (fun acc x => if x ∈ acc then acc else acc ++ [x]) []

/-- The distinct truthy public_key values of the fallback rows, in first-seen order
(the rows mapped to public_key, filtered by Boolean, piped through a Set). -/
def uniqueKeysOf (rows : List AdvertRow) : List Str :=
  jsSetDedup (rows.filterMap (fun r =>
    match r.publicKeyCol with
    | some s => if s = [] then none else some s
    | none => none))

def hexVal (c : Char) : Option Nat :=
  if '0' ≤ c ∧ c ≤ '9' then some (c.toNat - 48)
  else if 'a' ≤ c ∧ c ≤ 'f' then some (c.toNat - 87)
  else if 'A' ≤ c ∧ c ≤ 'F' then some (c.toNat - 55)
  else none

/-- Embeds Buffer.from(hex, "hex"): consume hex pairs, stopping at the first invalid or
incomplete pair. -/
def hexToBytes : Str → List Nat
  | c1 :: c2 :: rest =>
    (match hexVal c1, hexVal c2 with
      | some h, some l => (h * 16 + l) :: hexToBytes rest
      | _, _ => [])
  | _ => []

/-! ### ingestion pipeline (index.js) -/

/-- Split a text at its first colon, keeping what precedes and what follows it. -/
def splitAtFirstColon : Str → Option (Str × Str)
  | [] => none
  | c :: rest =>
    if c = ':' then some ([], rest)
    else
      match splitAtFirstColon rest with
      | some (pre, post) => some (c :: pre, post)
      | none => none

/-- Embeds the channel-message name split: the non-greedy pattern captures up to the first
colon, one optional whitespace character after the colon is consumed, and the remainder is
the message text; with no colon the whole text is kept and no name is extracted (faithful
to the source pattern for texts without line breaks). -/
def splitNameText (text : Str) : Option Str × Str :=
  match splitAtFirstColon text with
  | none => (none, text)
  | some (pre, post) =>
    match post with
    | c :: rest => if jsWhitespaceChars.contains c then (some pre, rest) else (some pre, post)
    | [] => (some pre, [])

/-- A channel object the getChannel call resolves with. -/
structure ChannelInfo where
  name : Option Str
  deriving DecidableEq

/-- The raw channel message pushed by the device. -/
structure ChannelMsg where
  channelIdx : Int
  text : Str
  senderTimestamp : Int
  deriving DecidableEq

/-- The raw contact message pushed by the device. -/
structure ContactMsg where
  pubKeyPfx : List Nat
  text : Str
  senderTimestamp : Int
  deriving DecidableEq

/-- The row handed to the record store by saveMessage; absent columns persist as null. -/
structure SavedMessage where
  publicKey : Option Str := none
  channelIdx : Option Int := none
  channelName : Option Str := none
  advName : Option Str := none
  senderTimestamp : Option Int := none
  text : Str := []
  deriving DecidableEq

/-- The outcome of the name-resolution chain of the channel handler, shallowly embedded:
a cache or device hit carrying the resolved entry, a miss together with the rows the
adverts-table fallback query then returns, or an error the guarding catch swallows. -/
inductive ResolveOutcome where
  | found (entry : NamedEntry)
  | missed (rows : List AdvertRow)
  | errored
  deriving DecidableEq

/-- What a run of the channel handler did. -/
structure ChannelOutcome where
  threw : Bool
  saved : Option SavedMessage
  cacheAfter : ContactCache
  botNudged : Bool
  deriving DecidableEq

/-- The synthetic contact the handler caches after a unique adverts-table fallback hit. -/
def syntheticContact (key : Str) (advName : Str) (rows : List AdvertRow) : Contact :=
  { publicKey := some (hexToBytes key), advName := some advName,
    lastMod := rows.head?.bind AdvertRow.lastModCol }

/-- Embeds onChannelMessageReceived.  The getChannel call is embedded as the Option of the
channel object it resolves with — none meaning the lookup fails, which the source performs
outside any try block, so the handler rejects before anything is persisted.  The guarded
resolution chain is embedded by its outcome; a unique fallback key resolves the identity
and caches a synthetic contact, zero or several distinct keys leave it null, as does a
caught resolution error.  The message row is persisted and the bot nudged whenever the
channel lookup succeeded. -/
def onChannelMessageReceived (cache : ContactCache) (channelLookup : Option ChannelInfo)
    (resolve : ResolveOutcome) (msg : ChannelMsg) : ChannelOutcome :=
  match channelLookup with
  | none => ⟨true, none, cache, false⟩
  | some info =>
    let split := splitNameText msg.text
    let advName := split.1
    let parsedText := split.2
    let keyAndCache : Option Str × ContactCache :=
      match advName with
      | none => (none, cache)
      | some nm =>
        if nm = [] then (none, cache)
        else
          match resolve with
          | ResolveOutcome.found entry => (some entry.2, cache)
          | ResolveOutcome.errored => (none, cache)
          | ResolveOutcome.missed rows =>
            match uniqueKeysOf rows with
            | [k] => (some k, cacheContact cache (syntheticContact k nm rows))
            | _ => (none, cache)
    let saved : SavedMessage :=
      { publicKey := keyAndCache.1, channelIdx := some msg.channelIdx,
        channelName := info.name, advName := advName,
        senderTimestamp := some msg.senderTimestamp, text := parsedText }
    ⟨false, some saved, keyAndCache.2, true⟩

/-- What a run of the contact handler did. -/
structure ContactOutcome where
  saved : Option SavedMessage
  botNudged : Bool
  threw : Bool
  cacheAfter : ContactCache
  deriving DecidableEq

/-- Embeds onContactMessageReceived; the device prefix lookup used on a cache miss is
embedded as the Option of the contact it resolves with.  An unknown contact persists a row
with null identity fields and returns before the bot is engaged; a known contact is
re-cached and the bot engaged. -/
def onContactMessageReceived (cache : ContactCache) (deviceLookup : Option Contact)
    (msg : ContactMsg) : ContactOutcome :=
  let contact : Option (Contact × Option Str) :=
    match getCachedContactByPfx cache (some msg.pubKeyPfx) with
    | some (c, hex) => some (c, some hex)
    | none => deviceLookup.map (fun c => (c, none))
  match contact with
  | none =>
    let saved : SavedMessage :=
      { publicKey := none, advName := none,
        senderTimestamp := some msg.senderTimestamp, text := msg.text }
    ⟨some saved, false, false, cache⟩
  | some (c, hexOpt) =>
    let fallbackHex : Str :=
      match c.publicKey with
      | some bs => bytesToHex bs
      | none => []
    let keyHex : Str :=
      match hexOpt with
      | some h => if h = [] then fallbackHex else h
      | none => fallbackHex
    let savedName : Option Str :=
      match c.advName with
      | some n => if n = [] then none else some n
      | none => none
    let saved : SavedMessage :=
      { publicKey := some keyHex, advName := savedName,
        senderTimestamp := some msg.senderTimestamp, text := msg.text }
    ⟨some saved, true, false, cacheContact cache c⟩

/-! ### advert normalization (index.js onAdvertReceived) -/

/-- Embeds the pick helper with its default identity transform: the advert payload value
when not null, else the corresponding field of the resolved contact, else undefined. -/
def pickF (advVal : Option α) (contact : Option Contact) (field : Contact → Option α) :
    Option α :=
  match advVal with
  | some v => some v
  | none =>
    match contact with
    | none => none
    | some c => field c

/-- Embeds the pick helper with an explicit transform; as in the source the transform also
runs on the contact field when that field is itself absent. -/
def pickT (advVal : Option α) (contact : Option Contact) (field : Contact → Option α)
    (transform : Option α → β) : Option β :=
  match advVal with
  | some v => some (transform (some v))
  | none =>
    match contact with
    | none => none
    | some c => some (transform (field c))

/-- The raw advert payload pushed by the device. -/
structure RawAdvert where
  publicKey : List Nat := []
  typeF : Option Int := none
  lastAdvert : Option Int := none
  lastMod : Option Int := none
  advLat : Option Int := none
  advLon : Option Int := none
  advName : Option Str := none
  deriving DecidableEq

/-- Fixed-point rendering of a micro-degree integer with six fractional digits. -/
def renderCoordVal (v : Int) : Str :=
  let a := v.natAbs
  let ip := natToStr (a / 1000000)
  let fpDigits := natToStr (a % 1000000)
  let fp := List.replicate (6 - fpDigits.length) '0' ++ fpDigits
  (if v < 0 then ['-'] else []) ++ ip ++ ['.'] ++ fp

/-- The coordinate transform of pick: a present value renders fixed-point, an absent one
renders as the empty string. -/
def renderCoordOpt (v : Option Int) : Str :=
  match v with
  | some x => renderCoordVal x
  | none => []

/-- The type transform of pick: decode through the device constants map and lowercase. -/
def typeNameOf (advTypeMap : List (String × Int)) (t : Option Int) : Str :=
  (constantKey advTypeMap t).toLower.data

/-- The merged advert fields the handler persists, logs and hands to the bot: the decoded
type, the raw last-advert and last-mod numbers, the rendered coordinates and the name. -/
structure NormalizedAdvert where
  typeF : Option Str := none
  lastAdvertRaw : Option Int := none
  lastModRaw : Option Int := none
  advLat : Option Str := none
  advLon : Option Str := none
  advName : Option Str := none
  deriving DecidableEq

/-- Embeds the field-merge portion of onAdvertReceived: every field picked from the advert
payload first, else from the resolved contact profile. -/
def normalizeAdvert (advTypeMap : List (String × Int)) (advert : RawAdvert)
    (contact : Option Contact) : NormalizedAdvert :=
  { typeF := pickT advert.typeF contact Contact.typeF (typeNameOf advTypeMap),
    lastAdvertRaw := pickF advert.lastAdvert contact Contact.lastAdvert,
    lastModRaw := pickF advert.lastMod contact Contact.lastMod,
    advLat := pickT advert.advLat contact Contact.advLat renderCoordOpt,
    advLon := pickT advert.advLon contact Contact.advLon renderCoordOpt,
    advName := pickF advert.advName contact Contact.advName }

/-! ### bot.js -/

/-- The translate-relay configuration parsed from the environment. -/
structure BotEnv where
  translateFrom : List Int
  translateTo : Option Int
  deriving DecidableEq

/-- What translateChannelMessage returned: null (channel not eligible), a notice object
with a message, or a send to the destination channel. -/
inductive TranslateResult where
  | skipped
  | notice (message : Str)
  | sent (channelIdx : Int) (text : Str)
  deriving DecidableEq

/-- The name part of the relayed payload: the display name when truthy, else "Unknown". -/
def nameOrUnknown (advName : Option Str) : Str :=
  match advName with
  | some n => if n = [] then "Unknown".data else n
  | none => "Unknown".data

def messageLimit : Nat := 135

/-- The character budget reserved for the translation: 135 less the name part and the
": " separator; Nat subtraction embeds the Math.max(0, _) clamp of the source. -/
def translateBudget (advName : Option Str) : Nat :=
  messageLimit - ((nameOrUnknown advName).length + 2)

/-- Embeds translateChannelMessage.  The AI gate call is embedded as the Option of the text
it resolves with — none meaning the call fails and the catch branch returns the failure
notice.  Number(null) is 0, so an absent source channel index reads as 0 and an absent
destination id falls back to the configured channel, then to 0.  The fixed quiescent wait
has no observable effect on the returned data. -/
def translateChannelMessage (env : BotEnv) (sourceChannelIdx : Option Int)
    (advName : Option Str) (text : Option Str) (destinationChannelIdx : Option Int)
    (hasConnection : Bool) (aiText : Option Str) : TranslateResult :=
  let src : Int := sourceChannelIdx.getD 0
  if src ∉ env.translateFrom then TranslateResult.skipped
  else
    let dest : Int := (destinationChannelIdx.or env.translateTo).getD 0
    if !hasConnection then TranslateResult.notice "Missing connection".data
    else
      let rawText := trimStr (text.getD [])
      if rawText = [] then TranslateResult.notice "Missing text".data
      else
        let budget := translateBudget advName
        match aiText with
        | none => TranslateResult.notice "Translation failed".data
        | some translated =>
          let translatedClean := trimStr translated
          if translatedClean = [] then TranslateResult.notice "Translation empty".data
          else
            let namePart := nameOrUnknown advName
            let capped := translatedClean.take budget
            let payload := (namePart ++ ": ".data ++ capped).take messageLimit
            TranslateResult.sent dest payload

/-! ### connection supervisor (index.js) -/

/-- How a connect() call settles; hangs embeds a promise that never settles, leaving the
suspended connectDevice parked at its await forever. -/
inductive ConnectOutcome where
  | resolves
  | rejects
  | hangs
  deriving DecidableEq

/-- Supervisor state: the connected flag, the reconnectTimer variable, the count of
scheduled-and-unfired reconnect timers, and the count of armed watchdog timeouts. -/
structure SupState where
  isConnected : Bool
  reconnectTimer : Bool
  liveReconnectTimers : Nat
  watchdogs : Nat
  deriving DecidableEq

def initSup : SupState := ⟨false, false, 0, 0⟩

/-- Embeds queueReconnect: a no-op without a configured delay or while a timer is already
pending, else schedule exactly one timer. -/
def queueReconnect (d : Nat) (s : SupState) : SupState :=
  if d = 0 then s
  else if s.reconnectTimer then s
  else { s with reconnectTimer := true, liveReconnectTimers := s.liveReconnectTimers + 1 }

/-- Embeds clearReconnectTimer. -/
def clearReconnectTimer (s : SupState) : SupState :=
  if s.reconnectTimer then
    { s with reconnectTimer := false, liveReconnectTimers := s.liveReconnectTimers - 1 }
  else s

/-- Embeds connectDevice: a configured-but-missing device path queues a reconnect; a
rejecting connect call queues a reconnect; a resolving connect call arms the watchdog
timeout when a delay is configured; a connect call that neither resolves nor rejects runs
nothing after the await. -/
def connectDeviceStep (d : Nat) (s : SupState) (deviceMissing : Bool)
    (outcome : ConnectOutcome) : SupState :=
  if deviceMissing then queueReconnect d s
  else
    match outcome with
    | ConnectOutcome.rejects => queueReconnect d s
    | ConnectOutcome.hangs => s
    | ConnectOutcome.resolves =>
      if d = 0 then s else { s with watchdogs := s.watchdogs + 1 }

/-- The events the single-threaded loop interleaves: an explicit connect attempt, a pending
reconnect timer firing (it nulls the variable and re-runs connectDevice), a watchdog
timeout firing (it queues a reconnect when the state is not Connected), and the connected,
disconnected and error events of the device connection. -/
inductive SupEvent where
  | connectAttempt (deviceMissing : Bool) (outcome : ConnectOutcome)
  | timerFire (deviceMissing : Bool) (outcome : ConnectOutcome)
  | watchdogFire
  | gotConnected
  | gotDisconnected
  | gotError
  deriving DecidableEq

/-- One step of the supervisor event loop. -/
def supStep (d : Nat) (s : SupState) : SupEvent → SupState
  | SupEvent.connectAttempt m o => connectDeviceStep d s m o
  | SupEvent.timerFire m o =>
    if s.reconnectTimer then
      connectDeviceStep d
        { s with reconnectTimer := false, liveReconnectTimers := s.liveReconnectTimers - 1 } m o
    else s
  | SupEvent.watchdogFire =>
    if s.watchdogs = 0 then s
    else
      let s1 : SupState := { s with watchdogs := s.watchdogs - 1 }
      if s1.isConnected then s1 else queueReconnect d s1
  | SupEvent.gotConnected => clearReconnectTimer { s with isConnected := true }
  | SupEvent.gotDisconnected => queueReconnect d { s with isConnected := false }
  | SupEvent.gotError => queueReconnect d { s with isConnected := false }

/-- Run the supervisor over a sequence of events. -/
def supRun (d : Nat) (s : SupState) (events : List SupEvent) : SupState :=
  events.foldl (supStep d) s

/-- The reconnect-timer bookkeeping invariant: the timer variable is non-null exactly when
one timer is scheduled. -/
def SupInv (s : SupState) : Prop :=
  s.liveReconnectTimers = (if s.reconnectTimer then 1 else 0)

instance (s : SupState) : Decidable (SupInv s) := by
  unfold SupInv
  infer_instance

/-! ### general lemmas about the embedded primitives -/

theorem bytesToHex_append (a b : List Nat) :
    bytesToHex (a ++ b) = bytesToHex a ++ bytesToHex b := by
  induction a with
  | nil => rfl
  | cons x t ih =>
    show byteToHex x ++ bytesToHex (t ++ b) = (byteToHex x ++ bytesToHex t) ++ bytesToHex b
    rw [ih, List.append_assoc]

theorem byteToHex_ne_nil (b : Nat) : byteToHex b ≠ [] := by
  simp [byteToHex]

theorem bytesToHex_eq_nil_iff (bs : List Nat) : bytesToHex bs = [] ↔ bs = [] := by
  cases bs with
  | nil => simp [bytesToHex]
  | cons x t =>
    simp only [bytesToHex, List.flatMap_cons]
    constructor
    · intro h
      exact absurd (List.append_eq_nil.mp h).1 (byteToHex_ne_nil x)
    · intro h
      cases h

theorem nil_isPrefixOf (l : Str) : List.isPrefixOf ([] : Str) l = true := by
  cases l <;> rfl

theorem isPrefixOf_of_append (a t : Str) : List.isPrefixOf a (a ++ t) = true := by
  induction a with
  | nil => exact nil_isPrefixOf t
  | cons c cs ih => simp [List.isPrefixOf, ih]

/-- On a list whose only entries satisfying the scan predicate carry one fixed key, the
first-match scan returns that key with a value stored under it. -/
theorem find?_first_with_key {α : Type} (p : Str × α → Bool) (K : Str)
    (l : List (Str × α)) (hex : ∃ e ∈ l, p e = true)
    (huniq : ∀ e ∈ l, p e = true → e.1 = K) :
    ∃ v, (K, v) ∈ l ∧ l.find? p = some (K, v) := by
  induction l with
  | nil =>
    rcases hex with ⟨e, he, _⟩
    cases he
  | cons a t ih =>
    by_cases hpa : p a = true
    · have hk : a.1 = K := huniq a (List.mem_cons_self a t) hpa
      have ha : (K, a.2) = a := by
        rw [← hk]
      refine ⟨a.2, ?_, ?_⟩
      · rw [ha]
        exact List.mem_cons_self a t
      · rw [List.find?_cons_of_pos _ hpa, ha]
    · rcases hex with ⟨e, he, hpe⟩
      have het : e ∈ t := by
        rcases List.mem_cons.mp he with h | h
        · rw [h] at hpe
          exact absurd hpe hpa
        · exact h
      rcases ih ⟨e, het, hpe⟩ (fun e' he' hpe' => huniq e' (List.mem_cons_of_mem a he') hpe')
        with ⟨v, hv, hfind⟩
      exact ⟨v, List.mem_cons_of_mem a hv, by rw [List.find?_cons_of_neg _ hpa]; exact hfind⟩

/-- Setting a key in the ordered map makes it retrievable with the new value. -/
theorem mapGet_mapSet_self {α : Type} (k : Str) (v : α) (m : List (Str × α)) :
    mapGet (mapSet k v m) k = some v := by
  induction m with
  | nil => simp [mapSet, mapGet, List.find?]
  | cons a t ih =>
    by_cases hk : a.1 = k
    · simp [mapSet, hk, mapGet, List.find?]
    · unfold mapSet
      rw [if_neg hk]
      unfold mapGet at ih ⊢
      rw [List.find?_cons_of_neg]
      · exact ih
      · simp [hk]

/-- Truncating the whole composition is the same as first capping the tail to the budget
left over by the head. -/
theorem take_append_cap (a b : Str) (n : Nat) :
    (a ++ b.take (n - a.length)).take n = (a ++ b).take n := by
  rw [List.take_append_eq_append_take, List.take_append_eq_append_take, List.take_take,
    Nat.min_self]

theorem pickF_or (advVal : Option α) (c : Contact) (field : Contact → Option α) :
    pickF advVal (some c) field = advVal.or (field c) := by
  cases advVal <;> rfl

theorem pickF_noContact (advVal : Option α) (field : Contact → Option α) :
    pickF advVal none field = advVal := by
  cases advVal <;> rfl

theorem pickT_or (advVal : Option α) (c : Contact) (field : Contact → Option α)
    (transform : Option α → β) :
    pickT advVal (some c) field transform = some (transform (advVal.or (field c))) := by
  cases advVal <;> rfl

theorem pickT_noContact (advVal : Option α) (field : Contact → Option α)
    (transform : Option α → β) :
    pickT advVal none field transform = advVal.map (fun v => transform (some v)) := by
  cases advVal <;> rfl

/-! ### claim theorems -/

/-- C8: timestamp rendering distinguishes zero from absent — a null or undefined input
renders as the empty string for every host timezone offset, while the present value 0 is
treated as valid epoch zero and renders as the non-empty DD.MM.YYYY HH:MM:SS string
"01.01.1970 00:00:00". -/
theorem c8_zero_vs_absent :
    (∀ tz : Int, formatDateTime tz none = []) ∧
    formatDateTime 0 (some 0) = "01.01.1970 00:00:00".data ∧
    formatDateTime 0 (some 0) ≠ [] := by
  refine ⟨fun tz => rfl, by decide, by decide⟩

/-- C10: a present but zero-length prefix argument scans with the empty hex string, which
every stored key extends, so on a non-empty directory the lookup returns the first cached
profile in insertion order; only a null/undefined prefix argument yields absent. -/
theorem c10_empty_pfx (cache : ContactCache) (e : Str × Contact)
    (rest : List (Str × Contact)) (h : cache.byKey = e :: rest) :
    getCachedContactByPfx cache (some []) = some (e.2, e.1) ∧
    (∀ cache2 : ContactCache, getCachedContactByPfx cache2 none = none) := by
  constructor
  · show (cache.byKey.find? (fun p => List.isPrefixOf (bytesToHex []) p.1)).map
      (fun p => (p.2, p.1)) = some (e.2, e.1)
    rw [h]
    simp [List.find?, bytesToHex, nil_isPrefixOf]
  · intro cache2
    rfl

/-- C10 witness: a directory holding the single contact with key byte 171 under hex key
"ab"; the empty prefix returns it, the null prefix returns absent. -/
theorem c10_empty_pfx_witness :
    getCachedContactByPfx (cacheContact emptyCache { publicKey := some [171] }) (some []) =
      some (({ publicKey := some [171] } : Contact), "ab".data) ∧
    (∀ cache2 : ContactCache, getCachedContactByPfx cache2 none = none) :=
  c10_empty_pfx (cacheContact emptyCache { publicKey := some [171] })
    ("ab".data, ({ publicKey := some [171] } : Contact)) [] (by decide)

/-- C7: advert-normalization field merge — for each of type, lastAdvert, lastMod,
latitude, longitude and displayName, the payload value wins when present (its transform
applied), the resolved profile's value is taken when the payload value is absent, and no
value results when neither side has one; in particular a cached profile with lastMod 100
and an absent payload lastMod yields 100, while a payload lastMod of 200 yields 200. -/
theorem c7_field_merge (m : List (String × Int)) (contact : Contact) (pk : List Nat)
    (ot ola olm olat olon : Option Int) (onm : Option Str) :
    normalizeAdvert m ⟨pk, ot, ola, olm, olat, olon, onm⟩ (some contact) =
      { typeF := some (typeNameOf m (ot.or contact.typeF)),
        lastAdvertRaw := ola.or contact.lastAdvert,
        lastModRaw := olm.or contact.lastMod,
        advLat := some (renderCoordOpt (olat.or contact.advLat)),
        advLon := some (renderCoordOpt (olon.or contact.advLon)),
        advName := onm.or contact.advName } ∧
    normalizeAdvert m ⟨pk, ot, ola, olm, olat, olon, onm⟩ none =
      { typeF := ot.map (fun t => typeNameOf m (some t)),
        lastAdvertRaw := ola,
        lastModRaw := olm,
        advLat := olat.map (fun v => renderCoordOpt (some v)),
        advLon := olon.map (fun v => renderCoordOpt (some v)),
        advName := onm } ∧
    (normalizeAdvert m ⟨pk, none, none, none, none, none, none⟩
        (some { contact with lastMod := some 100 })).lastModRaw = some 100 ∧
    (normalizeAdvert m ⟨pk, none, none, some 200, none, none, none⟩
        (some { contact with lastMod := some 100 })).lastModRaw = some 200 := by
  refine ⟨?_, ?_, rfl, rfl⟩
  · unfold normalizeAdvert
    rw [pickT_or, pickF_or, pickF_or, pickT_or, pickT_or, pickF_or]
  · unfold normalizeAdvert
    rw [pickT_noContact, pickF_noContact, pickF_noContact, pickT_noContact, pickT_noContact,
      pickF_noContact]

/-- C5 counterexample: with identity [171, 205] cached before [171, 255], the byte
sequence [171] is a true byte-prefix of the stored identity [171, 255], yet the prefix
lookup returns the profile stored for [171, 205] — the first insertion-order match — and
not the profile for [171, 255]. -/
theorem c5_counterexample :
    ([171] <+: [171, 255]) ∧ ([171] : List Nat) ≠ [171, 255] ∧
    (mapGet (cacheContact (cacheContact emptyCache
          { publicKey := some [171, 205], advName := some "Alpha".data })
          { publicKey := some [171, 255], advName := some "Beta".data }).byKey
        (bytesToHex [171, 255]) =
      some { publicKey := some [171, 255], advName := some "Beta".data }) ∧
    (getCachedContactByPfx (cacheContact (cacheContact emptyCache
          { publicKey := some [171, 205], advName := some "Alpha".data })
          { publicKey := some [171, 255], advName := some "Beta".data }) (some [171]) =
      some (({ publicKey := some [171, 205], advName := some "Alpha".data } : Contact),
        bytesToHex [171, 205])) ∧
    bytesToHex [171, 205] ≠ bytesToHex [171, 255] := by
  refine ⟨⟨[255], rfl⟩, by decide, by decide, by decide, by decide⟩

/-- C5 amended: the prefix lookup returns the profile of the first stored identity in
insertion order whose hex key extends the prefix's hex encoding; hence for a stored
identity I and any true byte-prefix P of I it returns the profile stored for I whenever
I's key is the only stored key extending P's hex. -/
theorem c5_prefix_containment (cache : ContactCache) (I P : List Nat)
    (hstored : ∃ c, (bytesToHex I, c) ∈ cache.byKey)
    (hpre : P <+: I)
    (huniq : ∀ e ∈ cache.byKey, List.isPrefixOf (bytesToHex P) e.1 = true →
      e.1 = bytesToHex I) :
    ∃ c, (bytesToHex I, c) ∈ cache.byKey ∧
      getCachedContactByPfx cache (some P) = some (c, bytesToHex I) := by
  have hhex : List.isPrefixOf (bytesToHex P) (bytesToHex I) = true := by
    rcases hpre with ⟨t, ht⟩
    rw [← ht, bytesToHex_append]
    exact isPrefixOf_of_append (bytesToHex P) (bytesToHex t)
  rcases hstored with ⟨c0, hc0⟩
  have hex : ∃ e ∈ cache.byKey,
      (fun q : Str × Contact => List.isPrefixOf (bytesToHex P) q.1) e = true :=
    ⟨(bytesToHex I, c0), hc0, hhex⟩
  rcases find?_first_with_key (fun q => List.isPrefixOf (bytesToHex P) q.1)
      (bytesToHex I) cache.byKey hex huniq with ⟨v, hv, hfind⟩
  refine ⟨v, hv, ?_⟩
  show (cache.byKey.find? (fun q => List.isPrefixOf (bytesToHex P) q.1)).map
    (fun q => (q.2, q.1)) = some (v, bytesToHex I)
  rw [hfind]
  rfl

/-- C5 amended witness: a directory holding exactly the identity [171, 205]; its one-byte
true prefix [171] resolves to the stored profile. -/
theorem c5_prefix_containment_witness :
    ∃ c, (bytesToHex [171, 205], c) ∈
        (cacheContact emptyCache { publicKey := some [171, 205] }).byKey ∧
      getCachedContactByPfx (cacheContact emptyCache { publicKey := some [171, 205] })
        (some [171]) = some (c, bytesToHex [171, 205]) :=
  c5_prefix_containment (cacheContact emptyCache { publicKey := some [171, 205] })
    [171, 205] [171] ⟨{ publicKey := some [171, 205] }, by decide⟩ ⟨[205], rfl⟩
    (by decide)

/-- C6: after upserting contact A with display name X and then contact B with a different
identity and the same name, resolving by X returns B's entry — carrying B's key, not
A's — with no device fallback call and the cache unchanged. -/
theorem c6_name_overwrite (pa pb : List Nat) (x : Str) (laA lmA laB lmB : Option Int)
    (hpa : pa ≠ []) (hpb : pb ≠ []) (hdiff : bytesToHex pa ≠ bytesToHex pb) (hx : x ≠ [])
    (connection : Option (List Contact)) :
    resolveContactByAdvName (cacheContact (cacheContact emptyCache { publicKey := some pa, advName := some x, lastAdvert := laA, lastMod := lmA }) { publicKey := some pb, advName := some x, lastAdvert := laB, lastMod := lmB }) (some x) connection =
      (some (({ publicKey := some pb, advName := some x, lastAdvert := laB, lastMod := lmB } : Contact), bytesToHex pb), false,
        cacheContact (cacheContact emptyCache { publicKey := some pa, advName := some x, lastAdvert := laA, lastMod := lmA }) { publicKey := some pb, advName := some x, lastAdvert := laB, lastMod := lmB }) ∧
    bytesToHex pb ≠ bytesToHex pa := by
  have hpa' : bytesToHex pa ≠ [] := fun h => hpa ((bytesToHex_eq_nil_iff pa).mp h)
  have hpb' : bytesToHex pb ≠ [] := fun h => hpb ((bytesToHex_eq_nil_iff pb).mp h)
  refine ⟨?_, fun h => hdiff h.symm⟩
  simp only [cacheContact, emptyCache, hpa', hpb', hx, if_neg, mapSet]
  simp only [resolveContactByAdvName, hx, if_neg, mapGet, List.find?, beq_self_eq_true]
  simp [hpa', hpb', hx, hdiff, mapSet, mapGet, List.find?]

/-- C6 witness: identities [1] and [2] both named "X"; the resolve returns the second
contact's entry with no fallback call. -/
theorem c6_name_overwrite_witness :
    resolveContactByAdvName (cacheContact (cacheContact emptyCache { publicKey := some [1], advName := some "X".data, lastAdvert := none, lastMod := none }) { publicKey := some [2], advName := some "X".data, lastAdvert := none, lastMod := none }) (some "X".data) none =
      (some (({ publicKey := some [2], advName := some "X".data, lastAdvert := none, lastMod := none } : Contact), bytesToHex [2]), false,
        cacheContact (cacheContact emptyCache { publicKey := some [1], advName := some "X".data, lastAdvert := none, lastMod := none }) { publicKey := some [2], advName := some "X".data, lastAdvert := none, lastMod := none }) ∧
    bytesToHex [2] ≠ bytesToHex [1] :=
  c6_name_overwrite [1] [2] "X".data none none none none (by decide) (by decide)
    (by decide) (by decide) none

/-- C3: whenever the translation relay reaches a send, the reserved budget equals the
clamped 135 − (name length + 2) where the name part is the display name or "Unknown" when
that is absent, and the sent string is the trimmed translation prefixed with the name and
": ", hard-truncated to 135 characters, so its length never exceeds 135. -/
theorem c3_translation_budget (env : BotEnv) (srcIdx : Option Int) (advName : Option Str)
    (text : Option Str) (destIdx : Option Int) (hasConn : Bool) (aiText : Option Str)
    (d : Int) (p : Str)
    (h : translateChannelMessage env srcIdx advName text destIdx hasConn aiText =
      TranslateResult.sent d p) :
    (translateBudget advName : Int) =
      max 0 (135 - (((nameOrUnknown advName).length : Int) + 2)) ∧
    (∃ t, aiText = some t ∧
      p = (nameOrUnknown advName ++ ": ".data ++ trimStr t).take 135) ∧
    p.length ≤ 135 := by
  have hbudget : (translateBudget advName : Int) =
      max 0 (135 - (((nameOrUnknown advName).length : Int) + 2)) := by
    rcases le_total (0 : Int) (135 - (((nameOrUnknown advName).length : Int) + 2))
      with h0 | h0
    · rw [max_eq_right h0]
      unfold translateBudget messageLimit
      omega
    · rw [max_eq_left h0]
      unfold translateBudget messageLimit
      omega
  refine ⟨hbudget, ?_⟩
  have hsent : ∃ t, aiText = some t ∧
      p = (nameOrUnknown advName ++ ": ".data ++
        (trimStr t).take (translateBudget advName)).take 135 := by
    unfold translateChannelMessage at h
    rcases aiText with _ | translated
    all_goals dsimp only [] at h
    · by_cases h1 : srcIdx.getD 0 ∉ env.translateFrom
      · rw [if_pos h1] at h
        cases h
      · rw [if_neg h1] at h
        by_cases h2 : (!hasConn) = true
        · rw [if_pos h2] at h
          cases h
        · rw [if_neg h2] at h
          by_cases h3 : trimStr (text.getD []) = []
          · rw [if_pos h3] at h
            cases h
          · rw [if_neg h3] at h
            cases h
    · by_cases h1 : srcIdx.getD 0 ∉ env.translateFrom
      · rw [if_pos h1] at h
        cases h
      · rw [if_neg h1] at h
        by_cases h2 : (!hasConn) = true
        · rw [if_pos h2] at h
          cases h
        · rw [if_neg h2] at h
          by_cases h3 : trimStr (text.getD []) = []
          · rw [if_pos h3] at h
            cases h
          · rw [if_neg h3] at h
            by_cases h5 : trimStr translated = []
            · rw [if_pos h5] at h
              cases h
            · rw [if_neg h5] at h
              rw [TranslateResult.sent.injEq] at h
              exact ⟨translated, rfl, h.2.symm⟩
  rcases hsent with ⟨translated, hai, hp⟩
  have hlen : (nameOrUnknown advName ++ ": ".data).length =
      (nameOrUnknown advName).length + 2 := by
    rw [List.length_append]
    rfl
  have hcap : translateBudget advName =
      135 - (nameOrUnknown advName ++ ": ".data).length := by
    rw [hlen]
    rfl
  have hform : p = (nameOrUnknown advName ++ ": ".data ++ trimStr translated).take 135 := by
    rw [hp, hcap]
    exact take_append_cap (nameOrUnknown advName ++ ": ".data) (trimStr translated) 135
  refine ⟨⟨translated, hai, hform⟩, ?_⟩
  rw [hform, List.length_take]
  exact Nat.min_le_left _ _

/-- C3 witness: on eligible channel 1 with name "Alice" and translation " hello ", the
relay sends "Alice: hello" to channel 2 and the statement holds there. -/
theorem c3_translation_budget_witness :
    (translateBudget (some "Alice".data) : Int) =
      max 0 (135 - (((nameOrUnknown (some "Alice".data)).length : Int) + 2)) ∧
    (∃ t, (some " hello ".data : Option Str) = some t ∧
      "Alice: hello".data =
        (nameOrUnknown (some "Alice".data) ++ ": ".data ++ trimStr t).take 135) ∧
    ("Alice: hello".data : Str).length ≤ 135 :=
  c3_translation_budget ⟨[1], some 2⟩ (some 1) (some "Alice".data)
    (some "labdien".data) none true (some " hello ".data) 2 "Alice: hello".data
    (by decide)

/-- C4: when a channel message's extracted display name misses both the cache and the
device, the adverts-table fallback decides — two or more distinct identities leave the
persisted record's identity null and the cache untouched, while exactly one distinct
identity is persisted and a synthetic contact is cached for it. -/
theorem c4_ambiguous_fallback (cache : ContactCache) (info : ChannelInfo) (msg : ChannelMsg)
    (nm rest : Str) (hsplit : splitNameText msg.text = (some nm, rest)) (hnm : nm ≠ []) :
    (∀ rows : List AdvertRow, 2 ≤ (uniqueKeysOf rows).length →
      (onChannelMessageReceived cache (some info) (ResolveOutcome.missed rows) msg).saved =
        some { publicKey := none, channelIdx := some msg.channelIdx, channelName := info.name, advName := some nm, senderTimestamp := some msg.senderTimestamp, text := rest } ∧
      (onChannelMessageReceived cache (some info) (ResolveOutcome.missed rows) msg).cacheAfter = cache) ∧
    (∀ (rows : List AdvertRow) (k : Str), uniqueKeysOf rows = [k] →
      (onChannelMessageReceived cache (some info) (ResolveOutcome.missed rows) msg).saved =
        some { publicKey := some k, channelIdx := some msg.channelIdx, channelName := info.name, advName := some nm, senderTimestamp := some msg.senderTimestamp, text := rest } ∧
      (onChannelMessageReceived cache (some info) (ResolveOutcome.missed rows) msg).cacheAfter =
        cacheContact cache (syntheticContact k nm rows)) := by
  constructor
  · intro rows h2
    rcases hu : uniqueKeysOf rows with _ | ⟨k1, _ | ⟨k2, t⟩⟩
    · rw [hu] at h2
      simp at h2
    · rw [hu] at h2
      simp at h2
    · simp only [onChannelMessageReceived, hsplit, hnm, if_neg, hu]
      exact ⟨rfl, rfl⟩
  · intro rows k hu
    simp only [onChannelMessageReceived, hsplit, hnm, if_neg, hu]
    exact ⟨rfl, rfl⟩

/-- C4 witness: name "Rover" on a miss; two rows with distinct keys "ab" and "cd" leave
the identity null and the cache untouched, while a single row with key "ab" resolves it
and caches the synthetic contact. -/
theorem c4_ambiguous_fallback_witness :
    ((onChannelMessageReceived emptyCache (some ⟨some "gen".data⟩) (ResolveOutcome.missed [⟨some "ab".data, some 5⟩, ⟨some "cd".data, some 4⟩]) ⟨0, "Rover: ping".data, 7⟩).saved =
      some { publicKey := none, channelIdx := some 0, channelName := some "gen".data, advName := some "Rover".data, senderTimestamp := some 7, text := "ping".data } ∧
     (onChannelMessageReceived emptyCache (some ⟨some "gen".data⟩) (ResolveOutcome.missed [⟨some "ab".data, some 5⟩, ⟨some "cd".data, some 4⟩]) ⟨0, "Rover: ping".data, 7⟩).cacheAfter = emptyCache) ∧
    ((onChannelMessageReceived emptyCache (some ⟨some "gen".data⟩) (ResolveOutcome.missed [⟨some "ab".data, some 5⟩]) ⟨0, "Rover: ping".data, 7⟩).saved =
      some { publicKey := some "ab".data, channelIdx := some 0, channelName := some "gen".data, advName := some "Rover".data, senderTimestamp := some 7, text := "ping".data } ∧
     (onChannelMessageReceived emptyCache (some ⟨some "gen".data⟩) (ResolveOutcome.missed [⟨some "ab".data, some 5⟩]) ⟨0, "Rover: ping".data, 7⟩).cacheAfter =
      cacheContact emptyCache (syntheticContact "ab".data "Rover".data [⟨some "ab".data, some 5⟩])) := by
  have h := c4_ambiguous_fallback emptyCache ⟨some "gen".data⟩ ⟨0, "Rover: ping".data, 7⟩
    "Rover".data "ping".data (by decide) (by decide)
  exact ⟨h.1 [⟨some "ab".data, some 5⟩, ⟨some "cd".data, some 4⟩] (by decide),
    h.2 [⟨some "ab".data, some 5⟩] "ab".data (by decide)⟩

/-- C2 counterexample: a failing channel-info lookup is a resolution miss the claim says
is handled without a throw, yet the channel handler rejects there and persists nothing. -/
theorem c2_counterexample :
    (onChannelMessageReceived emptyCache none (ResolveOutcome.missed [])
      ⟨0, "Alice: hi".data, 5⟩).threw = true ∧
    (onChannelMessageReceived emptyCache none (ResolveOutcome.missed [])
      ⟨0, "Alice: hi".data, 5⟩).saved = none := by
  exact ⟨rfl, rfl⟩

/-- C2 amended: an unknown contact and a channel-name resolution miss — an ambiguous or
unmatched name, or a caught resolution error — leave the identity fields null in the
persisted record and the handlers proceed without throwing; only a failing channel-info
lookup escapes the channel handler (to the enclosing message-drain catch), with nothing
persisted. -/
theorem c2_resolution_misses (cache : ContactCache) (msg : ContactMsg)
    (hmiss : getCachedContactByPfx cache (some msg.pubKeyPfx) = none) :
    (onContactMessageReceived cache none msg).threw = false ∧
    (onContactMessageReceived cache none msg).saved =
      some { publicKey := none, advName := none, senderTimestamp := some msg.senderTimestamp, text := msg.text } ∧
    (onContactMessageReceived cache none msg).botNudged = false ∧
    (∀ (cache2 : ContactCache) (info : ChannelInfo) (cmsg : ChannelMsg)
        (resolve : ResolveOutcome),
      (resolve = ResolveOutcome.errored ∨
        ∃ rows, resolve = ResolveOutcome.missed rows ∧ ∀ k, uniqueKeysOf rows ≠ [k]) →
      (onChannelMessageReceived cache2 (some info) resolve cmsg).threw = false ∧
      Option.map SavedMessage.publicKey
        ((onChannelMessageReceived cache2 (some info) resolve cmsg).saved) = some none) := by
  refine ⟨?_, ?_, ?_, ?_⟩
  · simp [onContactMessageReceived, hmiss]
  · simp [onContactMessageReceived, hmiss]
  · simp [onContactMessageReceived, hmiss]
  · intro cache2 info cmsg resolve hres
    rcases hs : splitNameText cmsg.text with ⟨onam, rest⟩
    rcases onam with _ | nm
    · constructor
      · simp [onChannelMessageReceived, hs]
      · simp [onChannelMessageReceived, hs]
    · by_cases hnm : nm = []
      · subst hnm
        constructor
        · simp [onChannelMessageReceived, hs]
        · simp [onChannelMessageReceived, hs]
      · rcases hres with hres | ⟨rows, hres, hrows⟩
        · subst hres
          constructor
          · simp [onChannelMessageReceived, hs, hnm]
          · simp [onChannelMessageReceived, hs, hnm]
        · subst hres
          rcases hu : uniqueKeysOf rows with _ | ⟨k1, _ | ⟨k2, t⟩⟩
          · constructor
            · simp [onChannelMessageReceived, hs, hnm, hu]
            · simp [onChannelMessageReceived, hs, hnm, hu]
          · exact absurd hu (hrows k1)
          · constructor
            · simp [onChannelMessageReceived, hs, hnm, hu]
            · simp [onChannelMessageReceived, hs, hnm, hu]

/-- C2 amended witness: an unknown contact persists null identity fields without engaging
the bot, and a channel resolution error proceeds with a persisted null-identity record. -/
theorem c2_resolution_misses_witness :
    (onContactMessageReceived emptyCache none ⟨[1], "hi".data, 3⟩).threw = false ∧
    (onContactMessageReceived emptyCache none ⟨[1], "hi".data, 3⟩).saved =
      some { publicKey := none, advName := none, senderTimestamp := some 3, text := "hi".data } ∧
    (onContactMessageReceived emptyCache none ⟨[1], "hi".data, 3⟩).botNudged = false ∧
    ((onChannelMessageReceived emptyCache (some ⟨some "gen".data⟩) ResolveOutcome.errored ⟨0, "Alice: hi".data, 5⟩).threw = false ∧
     Option.map SavedMessage.publicKey
       ((onChannelMessageReceived emptyCache (some ⟨some "gen".data⟩) ResolveOutcome.errored ⟨0, "Alice: hi".data, 5⟩).saved) = some none) := by
  have h := c2_resolution_misses emptyCache ⟨[1], "hi".data, 3⟩ (by decide)
  exact ⟨h.1, h.2.1, h.2.2.1,
    h.2.2.2 emptyCache ⟨some "gen".data⟩ ⟨0, "Alice: hi".data, 5⟩ ResolveOutcome.errored
      (Or.inl rfl)⟩

theorem supInv_queueReconnect (d : Nat) (s : SupState) (h : SupInv s) :
    SupInv (queueReconnect d s) := by
  unfold queueReconnect SupInv at *
  split_ifs <;> simp_all

theorem supInv_clearReconnectTimer (s : SupState) (h : SupInv s) :
    SupInv (clearReconnectTimer s) := by
  unfold clearReconnectTimer SupInv at *
  split_ifs <;> simp_all

theorem supInv_connectDeviceStep (d : Nat) (s : SupState) (m : Bool) (o : ConnectOutcome)
    (h : SupInv s) : SupInv (connectDeviceStep d s m o) := by
  unfold connectDeviceStep
  by_cases h1 : m = true
  · rw [if_pos h1]
    exact supInv_queueReconnect d s h
  · rw [if_neg h1]
    cases o with
    | resolves =>
      by_cases h2 : d = 0
      · rw [if_pos h2]
        exact h
      · rw [if_neg h2]
        exact h
    | rejects => exact supInv_queueReconnect d s h
    | hangs => exact h

theorem supInv_supStep (d : Nat) (s : SupState) (e : SupEvent) (h : SupInv s) :
    SupInv (supStep d s e) := by
  cases e with
  | connectAttempt m o => exact supInv_connectDeviceStep d s m o h
  | timerFire m o =>
    show SupInv (if s.reconnectTimer then connectDeviceStep d
      { s with reconnectTimer := false, liveReconnectTimers := s.liveReconnectTimers - 1 }
      m o else s)
    by_cases h1 : s.reconnectTimer = true
    · rw [if_pos h1]
      apply supInv_connectDeviceStep
      unfold SupInv at *
      rw [h1] at h
      simp_all
    · rw [if_neg h1]
      exact h
  | watchdogFire =>
    show SupInv (if s.watchdogs = 0 then s else
      if ({ s with watchdogs := s.watchdogs - 1 } : SupState).isConnected then
        { s with watchdogs := s.watchdogs - 1 }
      else queueReconnect d { s with watchdogs := s.watchdogs - 1 })
    split_ifs with h1 h2
    · exact h
    · exact h
    · exact supInv_queueReconnect d _ h
  | gotConnected => exact supInv_clearReconnectTimer _ h
  | gotDisconnected => exact supInv_queueReconnect d _ h
  | gotError => exact supInv_queueReconnect d _ h

theorem supInv_supRun (d : Nat) (events : List SupEvent) :
    ∀ s : SupState, SupInv s → SupInv (supRun d s events) := by
  induction events with
  | nil => exact fun s h => h
  | cons e t ih => exact fun s h => ih (supStep d s e) (supInv_supStep d s e h)

/-- C9: reconnect scheduling is idempotent — from any state satisfying the bookkeeping
invariant, every event sequence keeps the count of pending reconnect timers at most one; a
schedule request while one is already pending is a no-op; and with a delay configured
every connect failure (also with the device path missing) leaves exactly one scheduled
reconnect timer pending, across repeated failures. -/
theorem c9_reconnect_idempotent (d : Nat) (hd : d ≠ 0) (s : SupState) (hs : SupInv s)
    (events : List SupEvent) :
    (supRun d s events).liveReconnectTimers ≤ 1 ∧
    (∀ s2 : SupState, s2.reconnectTimer = true → queueReconnect d s2 = s2) ∧
    (∀ (s2 : SupState) (m : Bool), SupInv s2 →
      (supStep d s2 (SupEvent.connectAttempt m ConnectOutcome.rejects)).liveReconnectTimers
        = 1 ∧
      (supStep d s2 (SupEvent.connectAttempt m ConnectOutcome.rejects)).reconnectTimer
        = true) := by
  refine ⟨?_, ?_, ?_⟩
  · have h := supInv_supRun d events s hs
    unfold SupInv at h
    rw [h]
    split_ifs <;> omega
  · intro s2 h2
    unfold queueReconnect
    rw [h2]
    split_ifs with hA hB
    · rfl
    · rfl
    · exact absurd rfl hB
  · intro s2 m h2
    have hq : supStep d s2 (SupEvent.connectAttempt m ConnectOutcome.rejects) =
        queueReconnect d s2 := by
      show connectDeviceStep d s2 m ConnectOutcome.rejects = queueReconnect d s2
      unfold connectDeviceStep
      split_ifs <;> rfl
    rw [hq]
    unfold queueReconnect
    unfold SupInv at h2
    rw [if_neg hd]
    by_cases hrt : s2.reconnectTimer = true
    · rw [if_pos hrt]
      rw [hrt] at h2
      simp at h2
      exact ⟨h2, hrt⟩
    · rw [if_neg hrt]
      have hrt2 : s2.reconnectTimer = false := by
        cases hb : s2.reconnectTimer
        · rfl
        · exact absurd hb hrt
      rw [hrt2] at h2
      simp at h2
      simp [h2]

/-- C9 witness: with delay 5, from the initial state a failure, a firing-and-failing
timer and a disconnect keep the live-timer count at 1 ≤ 1; a pending-timer state absorbs a
schedule request; and a connect failure from the initial state leaves exactly one pending
timer. -/
theorem c9_reconnect_idempotent_witness :
    (supRun 5 initSup [SupEvent.connectAttempt false ConnectOutcome.rejects,
      SupEvent.timerFire false ConnectOutcome.rejects,
      SupEvent.gotDisconnected]).liveReconnectTimers ≤ 1 ∧
    queueReconnect 5 ⟨false, true, 1, 0⟩ = ⟨false, true, 1, 0⟩ ∧
    ((supStep 5 initSup (SupEvent.connectAttempt false ConnectOutcome.rejects)).liveReconnectTimers = 1 ∧
     (supStep 5 initSup (SupEvent.connectAttempt false ConnectOutcome.rejects)).reconnectTimer = true) := by
  have h := c9_reconnect_idempotent 5 (by decide) initSup (by decide)
    [SupEvent.connectAttempt false ConnectOutcome.rejects,
      SupEvent.timerFire false ConnectOutcome.rejects, SupEvent.gotDisconnected]
  exact ⟨h.1, h.2.1 ⟨false, true, 1, 0⟩ rfl, h.2.2 initSup false (by decide)⟩

/-- C1 counterexample: a connect attempt whose connect call neither resolves nor rejects
leaves the supervisor exactly as it was — no pending reconnect timer and no armed
watchdog — so no reconnect attempt is forced within the configured delay or ever. -/
theorem c1_counterexample :
    supStep 5 initSup (SupEvent.connectAttempt false ConnectOutcome.hangs) = initSup ∧
    initSup.liveReconnectTimers = 0 ∧ initSup.watchdogs = 0 ∧
    initSup.reconnectTimer = false := by
  exact ⟨rfl, rfl, rfl, rfl⟩

/-- C1 amended: with a delay configured, a resolving connect attempt arms the watchdog
and the watchdog firing while the state has not reached Connected schedules a reconnect;
a rejecting connect attempt, or one skipped for a missing device path, queues a reconnect
directly; but a connect call that neither resolves nor rejects arms nothing and forces no
reconnect. -/
theorem c1_watchdog (d : Nat) (hd : d ≠ 0) :
    (∀ s : SupState, (connectDeviceStep d s false ConnectOutcome.resolves).watchdogs =
      s.watchdogs + 1) ∧
    (∀ s : SupState, s.watchdogs ≠ 0 → s.isConnected = false → s.reconnectTimer = false →
      (supStep d s SupEvent.watchdogFire).reconnectTimer = true ∧
      (supStep d s SupEvent.watchdogFire).liveReconnectTimers =
        s.liveReconnectTimers + 1) ∧
    (∀ s : SupState, s.reconnectTimer = false →
      (connectDeviceStep d s false ConnectOutcome.rejects).reconnectTimer = true) ∧
    (∀ s : SupState, s.reconnectTimer = false →
      (connectDeviceStep d s true ConnectOutcome.hangs).reconnectTimer = true) ∧
    (∀ s : SupState, connectDeviceStep d s false ConnectOutcome.hangs = s) := by
  refine ⟨?_, ?_, ?_, ?_, ?_⟩
  · intro s
    unfold connectDeviceStep
    rw [if_neg Bool.false_ne_true, if_neg hd]
  · intro s hw hc ht
    unfold supStep queueReconnect
    rw [if_neg hw]
    simp only [hc, ht, if_neg hd, if_false]
    exact ⟨rfl, rfl⟩
  · intro s ht
    unfold connectDeviceStep queueReconnect
    rw [if_neg Bool.false_ne_true, if_neg hd, ht]
    rfl
  · intro s ht
    unfold connectDeviceStep queueReconnect
    simp only [if_true, if_neg hd, ht]
    rfl
  · intro s
    unfold connectDeviceStep
    rw [if_neg Bool.false_ne_true]

/-- C1 amended witness: with delay 5, a resolving attempt from the initial state arms one
watchdog; the watchdog firing in a disconnected state with no pending timer schedules a
reconnect; a rejecting attempt and a missing-device attempt from the initial state each
queue one; and a hanging attempt changes nothing. -/
theorem c1_watchdog_witness :
    (connectDeviceStep 5 initSup false ConnectOutcome.resolves).watchdogs =
      initSup.watchdogs + 1 ∧
    ((supStep 5 ⟨false, false, 0, 1⟩ SupEvent.watchdogFire).reconnectTimer = true ∧
     (supStep 5 ⟨false, false, 0, 1⟩ SupEvent.watchdogFire).liveReconnectTimers =
      (⟨false, false, 0, 1⟩ : SupState).liveReconnectTimers + 1) ∧
    (connectDeviceStep 5 initSup false ConnectOutcome.rejects).reconnectTimer = true ∧
    (connectDeviceStep 5 initSup true ConnectOutcome.hangs).reconnectTimer = true ∧
    connectDeviceStep 5 initSup false ConnectOutcome.hangs = initSup := by
  have h := c1_watchdog 5 (by decide)
  exact ⟨h.1 initSup, h.2.1 ⟨false, false, 0, 1⟩ (by decide) rfl rfl, h.2.2.1 initSup rfl,
    h.2.2.2.1 initSup rfl, h.2.2.2.2 initSup⟩

end Meshcore
